import Mathlib

/-!
Verification of the bayan-get-auth credential acquisition service.

A shallow embedding, in Lean 4, of the core logic of the `bayan-get-auth`
repository: the OTP extractor (`src/otpUtils.js`, `extractOtp`), the mail
correlator (`fetchOtpFromEmail`, `getLatestMessageFrom`), the credential
cache validity check (`src/authService.js`, `tryGetJwtExpMs`,
`isCachedAuthValid`), and the acquisition orchestrator (`getAuth`: single
flight coalescing, retry loop, OTP entry).

JavaScript strings are modelled as `List Char` / `String` (all texts involved
are BMP, so JS UTF-16 indices coincide with character indices).  JS `null` /
`undefined` become `Option`.  External platform functions (the Microsoft
Graph client, `Buffer` base64 decoding combined with `JSON.parse`) are
modelled as explicit function parameters of the embedding.
-/

namespace BayanGetAuth

/-! ## Character classes of the JavaScript regexes

`\w` (and hence the word boundary `\b`) in a non-unicode JS regex means
ASCII `[A-Za-z0-9_]`; `\d` means ASCII `[0-9]`. -/

/-- ASCII decimal digit, the JS regex class `\d`. -/
def isDigitChar (c : Char) : Bool :=
  48 ≤ c.toNat && c.toNat ≤ 57

/-- JS regex word character `\w` = `[A-Za-z0-9_]`, which drives `\b`. -/
def isWordChar (c : Char) : Bool :=
  isDigitChar c || (65 ≤ c.toNat && c.toNat ≤ 90) || (97 ≤ c.toNat && c.toNat ≤ 122)
    || c.toNat == 95

/-! ## `normalizeDigits` (src/otpUtils.js lines 1-6)

Maps Arabic-Indic (U+0660-U+0669) and Extended Arabic-Indic (U+06F0-U+06F9)
digits to ASCII digits, using the index of the digit in the reference digit
string exactly as the JS replacer does. -/

/-- One character of `normalizeDigits`. -/
def normalizeDigitChar (c : Char) : Char :=
  if 0x660 ≤ c.toNat ∧ c.toNat ≤ 0x669 then Char.ofNat (c.toNat - 0x660 + 48)
  else if 0x6F0 ≤ c.toNat ∧ c.toNat ≤ 0x6F9 then Char.ofNat (c.toNat - 0x6F0 + 48)
  else c

/-! ## The digit-run regex `\b(\d{minLen,maxLen})\b`

`windowText.match(new RegExp(...))` scans start positions left to right.  At
a position the regex matches iff the position is preceded by a non-word
character (or start of text), carries a maximal digit run whose length lies
in `[minLen, maxLen]`, and the character after the run is a non-word
character (or end of text): the greedy quantifier must consume the whole
maximal run, since stopping inside it puts `\b` between two digits. -/

/-- Length of the maximal digit run at the head of the list. -/
def digitRunLen : List Char → Nat
  | [] => 0
  | c :: cs => if isDigitChar c then digitRunLen cs + 1 else 0

/-- Does `\b(\d{minLen,maxLen})\b` match exactly at the head position, with
`prev` the character before that position (`none` at start of text)? -/
def boundedRunAt (minLen maxLen : Nat) (prev : Option Char) (l : List Char) : Bool :=
  let L := digitRunLen l
  (match prev with
   | none => true
   | some p => !(isWordChar p)) &&
  decide (minLen ≤ L) && decide (L ≤ maxLen) &&
  (match l.drop L with
   | [] => true
   | d :: _ => !(isWordChar d))

/-- First match of `\b(\d{minLen,maxLen})\b` over the list, scanning start
positions left to right; `prev` is the character before the current
position. -/
def findFirstRun (minLen maxLen : Nat) : Option Char → List Char → Option (List Char)
  | _, [] => none
  | prev, c :: cs =>
    if boundedRunAt minLen maxLen prev (c :: cs) then
      some ((c :: cs).take (digitRunLen (c :: cs)))
    else
      findFirstRun minLen maxLen (some c) cs

/-! ## The keyword regex `(otp|code|verification|verify|login|رمز|تحقق|تأكيد|التحقق)/i`

Only the index of the leftmost match is used by `extractOtp`, so we model
the search as: smallest position at which some keyword is a prefix of the
lowercased text. -/

/-- The keyword alternatives of src/otpUtils.js line 15. -/
def otpKeywords : List (List Char) :=
  ["otp".data, "code".data, "verification".data, "verify".data, "login".data,
   "رمز".data, "تحقق".data, "تأكيد".data, "التحقق".data]

/-- Index of the leftmost keyword occurrence in (already lowercased) `l`,
scanning from position `i`. -/
def firstKeywordIdxAux : Nat → List Char → Option Nat
  | _, [] => none
  | i, c :: cs =>
    if otpKeywords.any (fun k => k.isPrefixOf (c :: cs)) then some i
    else firstKeywordIdxAux (i + 1) cs

/-- `t.match(keywordRegex)?.index` for the case-insensitive keyword regex:
the match index is found on the lowercased text (JS `/i` compares ASCII
letters caselessly; the Arabic keywords have no case). -/
def keywordSearchIdx (t : List Char) : Option Nat :=
  firstKeywordIdxAux 0 (t.map Char.toLower)

/-- The keyword window `t.slice(max(0, i-80), min(t.length, i+160))`
(src/otpUtils.js lines 18-20). -/
def otpWindow (t : List Char) (i : Nat) : List Char :=
  (t.drop (i - 80)).take (min t.length (i + 160) - (i - 80))

/-! ## `extractOtp` (src/otpUtils.js lines 11-27) -/

/-- `extractOtp` on a character list: normalize digits, return `none` on an
empty result, otherwise search for a bounded digit run first inside the
window around the leftmost keyword, then over the whole text. -/
def extractOtpL (minLen maxLen : Nat) (raw : List Char) : Option (List Char) :=
  let t := raw.map normalizeDigitChar
  if t.isEmpty then none
  else
    match keywordSearchIdx t with
    | some i =>
      match findFirstRun minLen maxLen none (otpWindow t i) with
      | some r => some r
      | none => findFirstRun minLen maxLen none t
    | none => findFirstRun minLen maxLen none t

/-- `extractOtp(text, { minLen, maxLen })`.  A `none` text models JS
`null`/`undefined` (which `normalizeDigits` maps to `''`, so the function
returns `null`).  Defaults at every call site in the repository are
`minLen = 4`, `maxLen = 8`. -/
def extractOtp (text : Option String) (minLen maxLen : Nat) : Option String :=
  (extractOtpL minLen maxLen (text.getD "").data).map (fun l => String.mk l)

/-! ## Lemmas about the digit-run matcher -/

lemma digitRunLen_le_length (l : List Char) : digitRunLen l ≤ l.length := by
  induction l with
  | nil => simp [digitRunLen]
  | cons c cs ih =>
    simp only [digitRunLen, List.length_cons]
    split <;> omega

lemma mem_take_digitRunLen (l : List Char) :
    ∀ c ∈ l.take (digitRunLen l), isDigitChar c = true := by
  induction l with
  | nil => simp
  | cons c cs ih =>
    simp only [digitRunLen]
    split
    · next h =>
        intro d hd
        rw [List.take_succ_cons] at hd
        rcases List.mem_cons.mp hd with rfl | hd
        · exact h
        · exact ih d hd
    · simp

/-- Any run returned by the matcher has length in `[minLen, maxLen]` and is
made of ASCII digits. -/
lemma findFirstRun_shape (minLen maxLen : Nat) (l : List Char) :
    ∀ (prev : Option Char) (r : List Char), findFirstRun minLen maxLen prev l = some r →
      minLen ≤ r.length ∧ r.length ≤ maxLen ∧ ∀ c ∈ r, isDigitChar c = true := by
  induction l with
  | nil => intro prev r h; simp [findFirstRun] at h
  | cons c cs ih =>
    intro prev r h
    rw [findFirstRun] at h
    split at h
    · next hb =>
        obtain rfl : (c :: cs).take (digitRunLen (c :: cs)) = r := by
          exact Option.some.inj h
        simp only [boundedRunAt, Bool.and_eq_true, decide_eq_true_eq] at hb
        have hL := digitRunLen_le_length (c :: cs)
        have hlen : ((c :: cs).take (digitRunLen (c :: cs))).length = digitRunLen (c :: cs) := by
          rw [List.length_take]; omega
        refine ⟨?_, ?_, mem_take_digitRunLen (c :: cs)⟩
        · rw [hlen]; exact hb.1.1.2
        · rw [hlen]; exact hb.1.2
    · exact ih (some c) r h

/-- Any run returned by the matcher occurs inside the scanned text. -/
lemma findFirstRun_split (minLen maxLen : Nat) (l : List Char) :
    ∀ (prev : Option Char) (r : List Char), findFirstRun minLen maxLen prev l = some r →
      ∃ p q, l = p ++ r ++ q := by
  induction l with
  | nil => intro prev r h; simp [findFirstRun] at h
  | cons c cs ih =>
    intro prev r h
    rw [findFirstRun] at h
    split at h
    · obtain rfl : (c :: cs).take (digitRunLen (c :: cs)) = r := Option.some.inj h
      exact ⟨[], (c :: cs).drop (digitRunLen (c :: cs)), by
        simp [List.take_append_drop]⟩
    · obtain ⟨p, q, hpq⟩ := ih (some c) r h
      exact ⟨c :: p, q, by simp [hpq]⟩

/-- The matcher cannot distinguish two `maxLen` bounds that both dominate the
length of the scanned text (every run is at most that long). -/
lemma findFirstRun_cap (minLen max1 max2 : Nat) (l : List Char) :
    ∀ (prev : Option Char), l.length ≤ max1 → l.length ≤ max2 →
      findFirstRun minLen max1 prev l = findFirstRun minLen max2 prev l := by
  induction l with
  | nil => intro prev _ _; rfl
  | cons c cs ih =>
    intro prev h1 h2
    have hL := digitRunLen_le_length (c :: cs)
    have hlc : (c :: cs).length = cs.length + 1 := rfl
    have e1 : decide (digitRunLen (c :: cs) ≤ max1) = true := by
      simp only [decide_eq_true_eq]; omega
    have e2 : decide (digitRunLen (c :: cs) ≤ max2) = true := by
      simp only [decide_eq_true_eq]; omega
    have hcond : boundedRunAt minLen max1 prev (c :: cs)
        = boundedRunAt minLen max2 prev (c :: cs) := by
      simp only [boundedRunAt, e1, e2]
    rw [findFirstRun, findFirstRun, hcond]
    split
    · rfl
    · exact ih (some c) (by omega) (by omega)

/-- A successful `extractOtpL` result always comes out of some `findFirstRun`
scan (either the keyword window or the whole text). -/
lemma extractOtpL_eq_some (minLen maxLen : Nat) (raw r : List Char)
    (h : extractOtpL minLen maxLen raw = some r) :
    ∃ (l : List Char), findFirstRun minLen maxLen none l = some r := by
  simp only [extractOtpL] at h
  split at h
  · exact absurd h (by simp)
  · split at h
    · split at h
      · next r0 hr0 => exact ⟨_, by rw [hr0]; exact h⟩
      · exact ⟨_, h⟩
    · exact ⟨_, h⟩

/-! ## Claim theorems about the OtpExtractor -/

/-- C9: for every input (including `null`/`undefined`/empty/Arabic-digit
text, all of which the total embedding covers), whenever `extractOtp`
returns a non-null result, that result is a string of between `minLen` and
`maxLen` consecutive ASCII decimal digits.  (The Lean embedding is a total
function, reflecting that the JS function catches nothing and cannot throw
on any text input; `minLen ≥ 1` scopes the statement to the regime of every
call site, where `minLen = 4`.) -/
theorem extractOtp_shape (text : Option String) (minLen maxLen : Nat) (hmin : 1 ≤ minLen)
    (s : String) (hr : extractOtp text minLen maxLen = some s) :
    minLen ≤ s.length ∧ s.length ≤ maxLen ∧ ∀ c ∈ s.data, isDigitChar c = true := by
  obtain ⟨r, hr1, hr2⟩ : ∃ r, extractOtpL minLen maxLen (text.getD "").data = some r ∧
      String.mk r = s := by
    simpa [extractOtp] using hr
  obtain ⟨l, hl⟩ := extractOtpL_eq_some minLen maxLen _ r hr1
  have := findFirstRun_shape minLen maxLen l none r hl
  subst hr2
  exact this

/-- C9 witness: the theorem applied at an Extended-Arabic-digit input with
an Arabic keyword (`extractOtp (some "رمز التحقق ٤٨٢١") 4 8 = some "4821"`). -/
theorem extractOtp_shape_witness :
    4 ≤ ("4821" : String).length ∧ ("4821" : String).length ≤ 8 ∧
      ∀ c ∈ ("4821" : String).data, isDigitChar c = true :=
  extractOtp_shape (some "رمز التحقق ٤٨٢١") 4 8 (by decide) "4821" (by decide)

/-- C5 counterexample: the text `"Ref 55512, your code 1234 now"` has the
run `1234` adjacent to the keyword `code`, but the keyword window extends 80
characters to the left of the keyword, and the window search takes the
*first* bounded run in the window — the unrelated `55512` — so the claim
"returns that run and not an unrelated digit run located elsewhere" fails
at this input. -/
theorem extractOtp_keyword_counterexample :
    extractOtp (some "Ref 55512, your code 1234 now") 4 8 = some "55512" ∧
      extractOtp (some "Ref 55512, your code 1234 now") 4 8 ≠ some "1234" :=
  ⟨by decide, by decide⟩

/-- C5 (amended): the keyword anchoring guarantees that whenever the window
around the leftmost keyword contains a bounded digit run, the extractor
returns a bounded digit run lying *inside that window* (the first one, which
is the keyword-adjacent run whenever no other bounded run precedes it in the
window) — never a run from outside the window. -/
theorem extractOtp_window_anchored (raw : List Char) (minLen maxLen : Nat) (i : Nat)
    (hkw : keywordSearchIdx (raw.map normalizeDigitChar) = some i)
    (hrun : (findFirstRun minLen maxLen none
      (otpWindow (raw.map normalizeDigitChar) i)).isSome = true) :
    ∃ r, extractOtpL minLen maxLen raw = some r ∧
      (∃ p q, otpWindow (raw.map normalizeDigitChar) i = p ++ r ++ q) ∧
      minLen ≤ r.length ∧ r.length ≤ maxLen ∧ ∀ c ∈ r, isDigitChar c = true := by
  obtain ⟨r, hr⟩ := Option.isSome_iff_exists.mp hrun
  have hne : (raw.map normalizeDigitChar).isEmpty = false := by
    cases hmap : raw.map normalizeDigitChar with
    | nil => rw [hmap] at hkw; simp [keywordSearchIdx, firstKeywordIdxAux] at hkw
    | cons a as => simp
  refine ⟨r, ?_, ?_, ?_⟩
  · simp only [extractOtpL, hne, Bool.false_eq_true, if_false, hkw, hr]
  · exact findFirstRun_split minLen maxLen _ none r hr
  · exact findFirstRun_shape minLen maxLen _ none r hr

/-- C5 (amended) witness: the spec's own worked example, where the adjacent
run is the first bounded run in the window and is therefore returned. -/
theorem extractOtp_window_anchored_witness :
    ∃ r, extractOtpL 4 8 ("Your verification code is 4821, valid for 10 minutes".data)
        = some r ∧
      (∃ p q, otpWindow (("Your verification code is 4821, valid for 10 minutes".data).map
        normalizeDigitChar) 5 = p ++ r ++ q) ∧
      4 ≤ r.length ∧ r.length ≤ 8 ∧ ∀ c ∈ r, isDigitChar c = true :=
  extractOtp_window_anchored ("Your verification code is 4821, valid for 10 minutes".data)
    4 8 5 (by decide) (by decide)

/-- C8: on `"Order #998211 shipped"` — no recognized keyword, one 6-digit
run — `extractOtp` returns `"998211"` exactly when `minLen ≤ 6 ≤ maxLen`,
and returns none when `maxLen < 6`: the keyword-free fallback returns a
digit run only if its length falls within `[minLen, maxLen]`. -/
theorem extractOtp_keyword_free_fallback (minLen maxLen : Nat)
    (hmin : 1 ≤ minLen) (hmm : minLen ≤ maxLen) :
    (minLen ≤ 6 → 6 ≤ maxLen →
      extractOtp (some "Order #998211 shipped") minLen maxLen = some "998211") ∧
    (maxLen < 6 → extractOtp (some "Order #998211 shipped") minLen maxLen = none) := by
  constructor
  · intro h6a h6b
    by_cases hcap : maxLen ≤ 21
    · interval_cases minLen <;> interval_cases maxLen <;> decide
    · have hred : extractOtp (some "Order #998211 shipped") minLen maxLen
          = (findFirstRun minLen maxLen none ("Order #998211 shipped".data)).map
              (fun l => String.mk l) := rfl
      have hlen : ("Order #998211 shipped".data).length = 21 := rfl
      rw [hred, findFirstRun_cap minLen maxLen 21 ("Order #998211 shipped".data) none
        (by omega) (by omega)]
      interval_cases minLen <;> decide
  · intro hlt
    interval_cases maxLen <;> interval_cases minLen <;> decide

/-- C8 witness: the theorem applied at the default extraction parameters
`minLen = 4, maxLen = 8` (both halves, the second at `maxLen = 5`). -/
theorem extractOtp_keyword_free_fallback_witness :
    extractOtp (some "Order #998211 shipped") 4 8 = some "998211" ∧
      extractOtp (some "Order #998211 shipped") 4 5 = none :=
  ⟨(extractOtp_keyword_free_fallback 4 8 (by decide) (by decide)).1 (by decide) (by decide),
   (extractOtp_keyword_free_fallback 4 5 (by decide) (by decide)).2 (by decide)⟩

/-! ## The credential cache (src/authService.js lines 352-397, 521-523)

The credential bundle produced by a successful login.  Only the fields the
cache validity logic inspects are carried explicitly; `accessToken` is
`Option String` because the JS value may be `null`. -/

structure AuthResult where
  accessToken : Option String
  cookieHeader : String
deriving DecidableEq

/-- A JS `Error` as observed by callers of `getAuth` (its `message` and
optional `code` property). -/
structure JsError where
  message : String
  code : Option String
deriving DecidableEq

/-- `tryGetJwtExpMs(token)` (src/authService.js lines 371-385).  `token` is
`none` for JS non-string values (the `typeof token !== 'string'` guard).
The platform pipeline `base64UrlDecodeToString` + `JSON.parse` +
`Number.isFinite` on the dot-separated payload segment is modelled by the
explicit parameter `parseExp : String → Option Int`, which returns the
token's finite `exp` claim (in seconds) when the segment decodes and parses,
and `none` otherwise; the function scales it to milliseconds. -/
def tryGetJwtExpMs (parseExp : String → Option Int) (token : Option String) : Option Int :=
  match token with
  | none => none
  | some t =>
    let parts := t.splitOn "."
    if parts.length < 2 then none
    else
      match parseExp (parts.getD 1 "") with
      | none => none
      | some exp => some (exp * 1000)

/-- JS truthiness of the `expMs` value at `if (expMs)` (line 391): truthy
iff present and nonzero. -/
def jwtExpTruthy (o : Option Int) : Bool :=
  match o with
  | some e => decide (e ≠ 0)
  | none => false

/-- `isCachedAuthValid({ ttlMs, skewMs = 60_000 })` (src/authService.js
lines 387-397), with the module state `cachedAuth`/`cachedAtMs` and the
current time passed explicitly.  When the token carries a truthy JWT
`exp`, validity is `now < expMs − skewMs`; otherwise the fallback-TTL
branch requires `ttlMs > 0`, `cachedAtMs > 0` and `now − cachedAtMs <
ttlMs` — note: no skew is applied in the fallback branch. -/
def isCachedAuthValid (parseExp : String → Option Int)
    (cachedAuth : Option AuthResult) (cachedAtMs : Int)
    (ttlMs skewMs nowMs : Int) : Bool :=
  match cachedAuth with
  | none => false
  | some auth =>
    let expMs := tryGetJwtExpMs parseExp auth.accessToken
    if jwtExpTruthy expMs then
      decide (nowMs < expMs.getD 0 - skewMs)
    else if 0 < ttlMs ∧ 0 < cachedAtMs then
      decide (nowMs - cachedAtMs < ttlMs)
    else
      false

/-- The claim's validity predicate, written from the spec's words (for
comparison with the code): a cached credential is returned iff
`now < expiresAtMs − skewMs`, where `expiresAtMs` is the token's JWT `exp`
in ms when parseable and `acquiredAtMs + fallbackTtlMs` otherwise. -/
def claimCacheValid (expMs : Option Int) (acquiredAtMs fallbackTtlMs skewMs nowMs : Int) :
    Bool :=
  match expMs with
  | some e => decide (nowMs < e - skewMs)
  | none => decide (nowMs < acquiredAtMs + fallbackTtlMs - skewMs)

/-- C2 counterexample: a cached bundle with no parseable JWT (`accessToken`
is `null`), acquired at `t = 1000` with fallback TTL `100000` and the
default 60 s skew.  At `now = 100999` the claim's boundary
`acquiredAtMs + ttlMs − skewMs = 41000` has long passed, so the claim says
the cache returns none — but the code's fallback branch applies no skew and
still reports the entry as valid. -/
theorem isCachedAuthValid_claim_counterexample :
    isCachedAuthValid (fun _ => none) (some ⟨none, ""⟩) 1000 100000 60000 100999 = true ∧
      claimCacheValid (tryGetJwtExpMs (fun _ => none) (none : Option String))
          1000 100000 60000 100999 = false :=
  ⟨by decide, by decide⟩

/-- The amended validity predicate: the safety skew applies only to the
JWT branch; the fallback branch uses the plain TTL horizon
`acquiredAtMs + ttlMs` with no skew, and additionally requires `ttlMs > 0`
and `acquiredAtMs > 0`. -/
def amendedCacheValid (expMs : Option Int) (cachedAtMs ttlMs skewMs nowMs : Int) : Prop :=
  match expMs with
  | some e =>
    if e ≠ 0 then nowMs < e - skewMs
    else 0 < ttlMs ∧ 0 < cachedAtMs ∧ nowMs < cachedAtMs + ttlMs
  | none => 0 < ttlMs ∧ 0 < cachedAtMs ∧ nowMs < cachedAtMs + ttlMs

/-- C2 (amended): for every parse oracle, cached bundle and parameters,
the cache reports the entry valid iff `now` is strictly below the
boundary `expMs − skewMs` when the token has a parseable nonzero `exp`,
and strictly below `acquiredAtMs + ttlMs` (no skew; requires `ttlMs > 0`
and `acquiredAtMs > 0`) otherwise. -/
theorem isCachedAuthValid_amended (parseExp : String → Option Int)
    (auth : AuthResult) (cachedAtMs ttlMs skewMs nowMs : Int) :
    isCachedAuthValid parseExp (some auth) cachedAtMs ttlMs skewMs nowMs = true ↔
      amendedCacheValid (tryGetJwtExpMs parseExp auth.accessToken)
        cachedAtMs ttlMs skewMs nowMs := by
  cases h : tryGetJwtExpMs parseExp auth.accessToken with
  | none =>
    simp only [isCachedAuthValid, h, jwtExpTruthy, amendedCacheValid]
    rw [if_neg (by simp)]
    split
    · next hp => simp only [decide_eq_true_eq]; omega
    · next hp => simp only [Bool.false_eq_true, false_iff]; omega
  | some e =>
    by_cases he : e = 0
    · subst he
      simp only [isCachedAuthValid, h, jwtExpTruthy, amendedCacheValid,
        ne_eq, not_true_eq_false, if_false]
      rw [if_neg (by simp)]
      split
      · next hp => simp only [decide_eq_true_eq]; omega
      · next hp => simp only [Bool.false_eq_true, false_iff]; omega
    · simp only [isCachedAuthValid, h, jwtExpTruthy, amendedCacheValid, ne_eq, he,
        not_false_eq_true, if_true]
      rw [if_pos (by simpa using he)]
      simp only [Option.getD_some, decide_eq_true_eq]

/-! ## The acquisition orchestrator (src/authService.js lines 525-879)

The outcome of one full login-body run (the async function of lines
558-872: launch browser, run up to `MAX_ATTEMPTS` attempts). -/

inductive LoginResult
  | ok (bundle : AuthResult)
  | err (e : JsError)
deriving DecidableEq

/-- The retry loop of `getAuth` (src/authService.js lines 614-863):
`lastErr` starts as `none`; attempts are numbered from 1; a failing attempt
records its error and continues; when the attempt budget is exhausted the
loop throws `lastErr ?? new Error('Login failed')`.  The external
SessionAcquirer (one full UI-driven attempt, lines 643-848) is the
environment function `attemptOutcome`. -/
def runLoginAttempts (attemptOutcome : Nat → LoginResult) :
    Nat → Nat → Option JsError → LoginResult
  | _, 0, lastErr => .err (lastErr.getD ⟨"Login failed", none⟩)
  | attempt, fuel + 1, lastErr =>
    match attemptOutcome attempt with
    | .ok r => .ok r
    | .err e => runLoginAttempts attemptOutcome (attempt + 1) fuel (some e)

/-- The module-level mutable state of src/authService.js (lines 352-355),
after `loadAuthCacheOnce` has resolved: the cache pair, the single-flight
marker (`inFlightAuthPromise`, identified by a promise id), plus two ghost
fields — a counter generating fresh promise ids and the log of login
sequences started (one entry per execution of the assignment at line 558,
i.e. one per started SessionAcquirer invocation sequence). -/
structure OrchState where
  cachedAuth : Option AuthResult
  cachedAtMs : Int
  inFlightAuthPromise : Option Nat
  nextPromiseId : Nat
  startedLogins : List Nat
deriving DecidableEq

/-- Where one `getAuth` caller stands.  `entering` = the call has passed
`await loadAuthCacheOnce()` (line 536) and is about to execute the
synchronous block of lines 538-558; `awaiting p` = the call is suspended on
`await` of promise `p` (line 547 or line 875); `done r` = the call
resolved/rejected with `r`. -/
inductive CallerPhase
  | entering
  | awaiting (p : Nat)
  | done (r : LoginResult)
deriving DecidableEq

/-- The synchronous check block of `getAuth` with `forceRefresh = false`
(src/authService.js lines 544-558).  Between the `await` at line 536 and
the first suspension inside the spawned login body, this code runs without
any suspension point, so under Node's run-to-completion scheduling it is a
single atomic step: consult the single-flight marker, else the cache
(with the default 60 s skew, line 552/387), else install a fresh in-flight
promise (line 558) — which starts a new login sequence. -/
def getAuthCheckStep (parseExp : String → Option Int) (ttlMs nowMs : Int)
    (s : OrchState) : OrchState × CallerPhase :=
  match s.inFlightAuthPromise with
  | some p => (s, .awaiting p)
  | none =>
    if isCachedAuthValid parseExp s.cachedAuth s.cachedAtMs ttlMs 60000 nowMs then
      (s, .done (.ok (s.cachedAuth.getD ⟨none, ""⟩)))
    else
      let p := s.nextPromiseId
      ({ s with
          inFlightAuthPromise := some p,
          nextPromiseId := p + 1,
          startedLogins := s.startedLogins ++ [p] }, .awaiting p)

/-- The cache update performed by a successful login body
(src/authService.js lines 842-847): cache iff `ttlMs > 0` or the bundle's
token has a truthy JWT `exp`.  A failed body leaves the cache untouched. -/
def applyCacheOnOutcome (parseExp : String → Option Int) (ttlMs nowMs : Int)
    (s : OrchState) : LoginResult → OrchState
  | .ok res =>
    if decide (0 < ttlMs) || jwtExpTruthy (tryGetJwtExpMs parseExp res.accessToken) then
      { s with cachedAuth := some res, cachedAtMs := nowMs }
    else s
  | .err _ => s

/-- A system configuration: the shared module state plus the phase of each
concurrent `getAuth` caller (caller `i` is entry `i` of the list). -/
structure OrchConfig where
  st : OrchState
  callers : List CallerPhase
deriving DecidableEq

/-- Scheduler events: caller `i` runs its atomic check block at time `now`,
or the pending login body settles with result `r` at time `now` (which also
runs the creator's `finally` of line 877, clearing the in-flight marker,
and resolves every caller awaiting that promise). -/
inductive OrchEvent
  | enter (caller : Nat) (nowMs : Int)
  | complete (r : LoginResult) (nowMs : Int)
deriving DecidableEq

/-- One scheduler step; `none` when the event is not enabled. -/
def stepE (parseExp : String → Option Int) (ttlMs : Int) (cfg : OrchConfig) :
    OrchEvent → Option OrchConfig
  | .enter i now =>
    match cfg.callers[i]? with
    | some CallerPhase.entering =>
      let sp := getAuthCheckStep parseExp ttlMs now cfg.st
      some ⟨sp.1, cfg.callers.set i sp.2⟩
    | _ => none
  | .complete r now =>
    match cfg.st.inFlightAuthPromise with
    | none => none
    | some p =>
      let s1 := applyCacheOnOutcome parseExp ttlMs now cfg.st r
      some ⟨{ s1 with inFlightAuthPromise := none },
            cfg.callers.map (fun ph => if ph = .awaiting p then .done r else ph)⟩

/-- Run a list of scheduler events; fails if any event is not enabled. -/
def runEvents (parseExp : String → Option Int) (ttlMs : Int) :
    OrchConfig → List OrchEvent → Option OrchConfig
  | cfg, [] => some cfg
  | cfg, ev :: evs =>
    match stepE parseExp ttlMs cfg ev with
    | some c2 => runEvents parseExp ttlMs c2 evs
    | none => none

/-- The initial configuration of the claimed scenario: no cache entry, no
acquisition in flight, `n` concurrent callers about to run their check
blocks. -/
def initConfig (n : Nat) : OrchConfig :=
  ⟨⟨none, 0, none, 0, []⟩, List.replicate n CallerPhase.entering⟩

/-- The shared state right after the first coalesced caller has installed
the in-flight promise (and before it settles): login sequence 0 started,
marker set to promise 0, cache still empty. -/
def singleFlightState : OrchState := ⟨none, 0, some 0, 1, [0]⟩

lemma runEvents_append (pe : String → Option Int) (ttl : Int) (l1 : List OrchEvent) :
    ∀ (l2 : List OrchEvent) (cfg : OrchConfig),
      runEvents pe ttl cfg (l1 ++ l2)
        = (runEvents pe ttl cfg l1).bind (fun c => runEvents pe ttl c l2) := by
  induction l1 with
  | nil => intro l2 cfg; rfl
  | cons ev l1 ih =>
    intro l2 cfg
    simp only [List.cons_append, runEvents]
    cases stepE pe ttl cfg ev with
    | none => rfl
    | some c2 => exact ih l2 c2

/-- With the in-flight marker set, a caller's check block only coalesces:
it awaits the pending promise and leaves the shared state untouched. -/
lemma stepE_enter_coalesces (pe : String → Option Int) (ttl : Int)
    (cs : List CallerPhase) (j : Nat) (t : Int)
    (h0 : cs[j]? = some CallerPhase.entering) :
    stepE pe ttl ⟨singleFlightState, cs⟩ (.enter j t)
      = some ⟨singleFlightState, cs.set j (.awaiting 0)⟩ := by
  simp only [stepE, h0, getAuthCheckStep, singleFlightState]

/-- Processing any nodup batch of caller check blocks while promise 0 is
in flight leaves the shared state untouched and parks exactly the entered
callers on promise 0. -/
lemma runEnters (pe : String → Option Int) (ttl : Int) (es : List (Nat × Int)) :
    ∀ cs : List CallerPhase,
      (es.map Prod.fst).Nodup →
      (∀ e ∈ es, cs[e.1]? = some CallerPhase.entering) →
      ∃ cs2, runEvents pe ttl ⟨singleFlightState, cs⟩
          (es.map (fun e => OrchEvent.enter e.1 e.2)) = some ⟨singleFlightState, cs2⟩ ∧
        cs2.length = cs.length ∧
        (∀ i, i ∈ es.map Prod.fst → cs2[i]? = some (CallerPhase.awaiting 0)) ∧
        (∀ i, i ∉ es.map Prod.fst → cs2[i]? = cs[i]?) := by
  induction es with
  | nil =>
    intro cs _ _
    exact ⟨cs, rfl, rfl, by simp, fun i _ => rfl⟩
  | cons e es ih =>
    intro cs hnd hent
    have h0 : cs[e.1]? = some CallerPhase.entering := hent e (by simp)
    have hj : e.1 < cs.length := (List.getElem?_eq_some.mp h0).1
    have hnd' : (e.1 :: es.map Prod.fst).Nodup := by simpa using hnd
    have hnotin : e.1 ∉ es.map Prod.fst := (List.nodup_cons.mp hnd').1
    obtain ⟨cs2, hrun, hlen, hin, hout⟩ := ih (cs.set e.1 (.awaiting 0))
      (List.nodup_cons.mp hnd').2
      (fun e2 he2 => by
        have hne : e.1 ≠ e2.1 := by
          intro hh
          exact hnotin (hh ▸ List.mem_map_of_mem Prod.fst he2)
        rw [List.getElem?_set_ne hne]
        exact hent e2 (List.mem_cons_of_mem _ he2))
    refine ⟨cs2, ?_, ?_, ?_, ?_⟩
    · simp only [List.map_cons, runEvents,
        stepE_enter_coalesces pe ttl cs e.1 e.2 h0]
      exact hrun
    · rw [hlen, List.length_set]
    · intro i hi
      rw [List.map_cons] at hi
      rcases List.mem_cons.mp hi with rfl | hi2
      · rw [hout _ hnotin, List.getElem?_set_eq hj]
      · exact hin i hi2
    · intro i hi
      have hi1 : i ∉ es.map Prod.fst := fun hmem => hi (by simp [hmem])
      have hne : e.1 ≠ i := fun hh => hi (by simp [hh])
      rw [hout i hi1, List.getElem?_set_ne hne]

/-- C1: single-flight coalescing.  Starting from an empty cache with no
acquisition in flight, any schedule in which `n ≥ 1` concurrent `getAuth`
callers (each with `forceRefresh = false`) all run their check blocks
before the pending acquisition settles starts exactly one login sequence
(one SessionAcquirer invocation sequence, not `n`), and every caller
resolves with the same bundle-or-error `r` of that single acquisition. -/
theorem getAuth_single_flight (pe : String → Option Int) (ttl : Int) (n : Nat)
    (es : List (Nat × Int)) (r : LoginResult) (tC : Int) (cfg : OrchConfig)
    (hn : 0 < n)
    (hnd : (es.map Prod.fst).Nodup)
    (hlt : ∀ e ∈ es, e.1 < n)
    (hall : ∀ i, i < n → i ∈ es.map Prod.fst)
    (hrun : runEvents pe ttl (initConfig n)
        (es.map (fun e => OrchEvent.enter e.1 e.2) ++ [OrchEvent.complete r tC])
      = some cfg) :
    cfg.st.startedLogins.length = 1 ∧ ∀ ph ∈ cfg.callers, ph = CallerPhase.done r := by
  obtain ⟨e0, es', rfl⟩ : ∃ e0 es', es = e0 :: es' := by
    cases es with
    | nil => exact absurd (hall 0 hn) (by simp)
    | cons a l => exact ⟨a, l, rfl⟩
  rw [runEvents_append] at hrun
  obtain ⟨mid, hmid, hfin⟩ := Option.bind_eq_some.mp hrun
  -- the first check block spawns login sequence 0
  have h0n : e0.1 < n := hlt e0 (by simp)
  have h00 : (List.replicate n CallerPhase.entering)[e0.1]? = some CallerPhase.entering :=
    List.getElem?_replicate_of_lt h0n
  have hstep1 : stepE pe ttl (initConfig n) (.enter e0.1 e0.2)
      = some ⟨singleFlightState,
          (List.replicate n CallerPhase.entering).set e0.1 (.awaiting 0)⟩ := by
    simp only [stepE, initConfig, h00, getAuthCheckStep, isCachedAuthValid,
      singleFlightState]
    rfl
  rw [List.map_cons] at hmid
  rw [runEvents, hstep1] at hmid
  have hnd' : (es'.map Prod.fst).Nodup := (List.nodup_cons.mp (by simpa using hnd)).2
  have hnotin : e0.1 ∉ es'.map Prod.fst := (List.nodup_cons.mp (by simpa using hnd)).1
  obtain ⟨cs2, hrun2, hlen, hin, hout⟩ := runEnters pe ttl es'
    ((List.replicate n CallerPhase.entering).set e0.1 (.awaiting 0)) hnd'
    (fun e2 he2 => by
      have hne : e0.1 ≠ e2.1 := by
        intro hh
        exact hnotin (hh ▸ List.mem_map_of_mem Prod.fst he2)
      rw [List.getElem?_set_ne hne]
      simp [List.getElem?_replicate, hlt e2 (List.mem_cons_of_mem _ he2)])
  have hmid2 : runEvents pe ttl
      ⟨singleFlightState, (List.replicate n CallerPhase.entering).set e0.1 (.awaiting 0)⟩
      (es'.map (fun e => OrchEvent.enter e.1 e.2)) = some mid := hmid
  rw [hrun2] at hmid2
  obtain rfl : mid = ⟨singleFlightState, cs2⟩ := (Option.some.inj hmid2).symm
  -- the completion step resolves every parked caller with the same result
  have hfin2 : cfg = ⟨{ applyCacheOnOutcome pe ttl tC singleFlightState r with
      inFlightAuthPromise := none },
      cs2.map (fun ph => if ph = CallerPhase.awaiting 0 then CallerPhase.done r else ph)⟩ := by
    simp only [runEvents, stepE, singleFlightState] at hfin
    exact (Option.some.inj hfin).symm
  subst hfin2
  have hlen2 : cs2.length = n := by
    rw [hlen, List.length_set, List.length_replicate]
  have hall2 : ∀ a ∈ cs2, a = CallerPhase.awaiting 0 := by
    intro a ha
    obtain ⟨i, hi⟩ := List.mem_iff_getElem?.mp ha
    have hilt : i < n := hlen2 ▸ (List.getElem?_eq_some.mp hi).1
    have hmem := hall i hilt
    rw [List.map_cons] at hmem
    rcases List.mem_cons.mp hmem with hcase | hcase
    · have : cs2[i]? = some (CallerPhase.awaiting 0) := by
        rw [hout i (hcase ▸ hnotin), hcase, List.getElem?_set_eq (by simpa [h0n])]
      rw [this] at hi
      exact (Option.some.inj hi).symm
    · have := hin i hcase
      rw [this] at hi
      exact (Option.some.inj hi).symm
  constructor
  · cases r <;> simp [applyCacheOnOutcome, singleFlightState] <;> split <;> rfl
  · intro ph hph
    obtain ⟨a, ha, rfl⟩ := List.mem_map.mp hph
    rw [hall2 a ha]
    simp

/-- C1 witness: two concurrent callers, both check blocks before the single
acquisition settles with a bundle; exactly one login sequence is in the log
and both callers hold the same bundle. -/
theorem getAuth_single_flight_witness :
    (OrchConfig.mk ⟨some ⟨none, ""⟩, 7, none, 1, [0]⟩
        [CallerPhase.done (.ok ⟨none, ""⟩), CallerPhase.done (.ok ⟨none, ""⟩)]).st.startedLogins.length
        = 1 ∧
      ∀ ph ∈ (OrchConfig.mk ⟨some ⟨none, ""⟩, 7, none, 1, [0]⟩
        [CallerPhase.done (.ok ⟨none, ""⟩), CallerPhase.done (.ok ⟨none, ""⟩)]).callers,
        ph = CallerPhase.done (.ok ⟨none, ""⟩) :=
  getAuth_single_flight (fun _ => none) 3600000 2 [(0, 5), (1, 6)] (.ok ⟨none, ""⟩) 7
    ⟨⟨some ⟨none, ""⟩, 7, none, 1, [0]⟩,
      [CallerPhase.done (.ok ⟨none, ""⟩), CallerPhase.done (.ok ⟨none, ""⟩)]⟩
    (by decide) (by decide) (by decide) (by decide) (by rfl)

/-- The retry loop under total failure: with every attempt in
`[start, start + fuel)` failing, the loop returns the error of the *last*
attempt (`lastErr` is overwritten on every failure and rethrown at
exhaustion). -/
lemma runLoginAttempts_all_fail (f : Nat → LoginResult) (errs : Nat → JsError) :
    ∀ (fuel : Nat), 1 ≤ fuel → ∀ (start : Nat) (lastE : Option JsError),
      (∀ i, start ≤ i → i < start + fuel → f i = .err (errs i)) →
      runLoginAttempts f start fuel lastE = .err (errs (start + fuel - 1)) := by
  intro fuel
  induction fuel with
  | zero => intro h; exact absurd h (by omega)
  | succ k ih =>
    intro _ start lastE hfail
    have hs : f start = .err (errs start) := hfail start (Nat.le_refl _) (by omega)
    simp only [runLoginAttempts, hs]
    cases k with
    | zero => simp [runLoginAttempts]
    | succ k2 =>
      rw [ih (by omega) (start + 1) (some (errs start))
        (fun i h1 h2 => hfail i (by omega) (by omega))]
      have harith : start + 1 + (k2 + 1) - 1 = start + (k2 + 1 + 1) - 1 := by omega
      rw [harith]

/-- C3: when all `MAX_ATTEMPTS` consecutive SessionAcquirer attempts fail,
(1) the login body rejects with the last attempt's underlying error (the
spec's terminal `AcquisitionFailed` outcome, which carries exactly that
error); (2) a full orchestrator trace — one caller acquiring, the body
rejecting, then a second caller calling — shows the in-flight marker
cleared on the terminal outcome and the second call starting a fresh
acquisition (a second login sequence in the log, no stuck state); and
(3) a fresh attempt sequence indeed starts from attempt 1: if its first
attempt succeeds, the fresh body returns that bundle. -/
theorem getAuth_retry_exhaustion (pe : String → Option Int) (ttl : Int)
    (f : Nat → LoginResult) (errs : Nat → JsError) (maxAttempts : Nat)
    (hmax : 1 ≤ maxAttempts)
    (hfail : ∀ i, 1 ≤ i → i ≤ maxAttempts → f i = .err (errs i)) :
    runLoginAttempts f 1 maxAttempts none = .err (errs maxAttempts) ∧
    (∀ t1 t2 t3 : Int,
      runEvents pe ttl (initConfig 2)
          [.enter 0 t1, .complete (.err (errs maxAttempts)) t2, .enter 1 t3]
        = some ⟨⟨none, 0, some 1, 2, [0, 1]⟩,
            [CallerPhase.done (.err (errs maxAttempts)), CallerPhase.awaiting 1]⟩) ∧
    (∀ (g : Nat → LoginResult) (b : AuthResult), g 1 = .ok b →
      runLoginAttempts g 1 maxAttempts none = .ok b) := by
  refine ⟨?_, ?_, ?_⟩
  · have := runLoginAttempts_all_fail f errs maxAttempts hmax 1 none
      (fun i h1 h2 => hfail i h1 (by omega))
    rw [this]
    have harith : 1 + maxAttempts - 1 = maxAttempts := by omega
    rw [harith]
  · intro t1 t2 t3
    rfl
  · intro g b hg
    cases maxAttempts with
    | zero => exact absurd hmax (by omega)
    | succ k => simp [runLoginAttempts, hg]

/-- C3 witness: three attempts all failing; the result is attempt 3's
error, and the post-failure trace starts a fresh second acquisition. -/
theorem getAuth_retry_exhaustion_witness :
    runLoginAttempts (fun i => .err ⟨toString i, none⟩) 1 3 none
        = .err ⟨toString 3, none⟩ ∧
      runEvents (fun _ => none) 3600000 (initConfig 2)
          [.enter 0 11, .complete (.err ⟨toString 3, none⟩) 12, .enter 1 13]
        = some ⟨⟨none, 0, some 1, 2, [0, 1]⟩,
            [CallerPhase.done (.err ⟨toString 3, none⟩), CallerPhase.awaiting 1]⟩ :=
  ⟨(getAuth_retry_exhaustion (fun _ => none) 3600000 (fun i => .err ⟨toString i, none⟩)
      (fun i => ⟨toString i, none⟩) 3 (by decide) (fun _ _ _ => rfl)).1,
   (getAuth_retry_exhaustion (fun _ => none) 3600000 (fun i => .err ⟨toString i, none⟩)
      (fun i => ⟨toString i, none⟩) 3 (by decide) (fun _ _ _ => rfl)).2.1 11 12 13⟩

/-! ## The MessageCorrelator: `fetchOtpFromEmail` (src/otpUtils.js lines 191-284)

A mail message as the poll loop sees it after `getLatestMessageFrom` has
already applied the sender-matching policy. -/

structure MailMsg where
  id : String
  receivedMs : Int
  subject : String
  bodyPreview : String
deriving DecidableEq

/-- What one call to `getLatestMessageFrom` inside the poll loop's `try`
block produces: a thrown error (any unexpected failure, caught at lines
276-280), or a message / no matching message. -/
inductive PollOutcome
  | threw (e : JsError)
  | msg (m : Option MailMsg)
deriving DecidableEq

/-- The per-attempt environment of the poll loop: the matched-message
lookup, the body text derived from `getMessageBodyById` (which returns
`null` on transport failure, yielding `''` at lines 246-250), and
`Date.now()` at the start of the attempt (line 214). -/
structure PollEnv where
  poll : Nat → PollOutcome
  body : Nat → String
  startTime : Nat → Int

/-- The baseline test `afterMessageId && msg.id === afterMessageId`
(src/otpUtils.js line 220): JS `&&` short-circuits on a *falsy* baseline,
so a `null` baseline — and likewise an *empty-string* baseline — disables
the check entirely. -/
def otpBaselineSkip (afterMessageId : Option String) (msgId : String) : Bool :=
  match afterMessageId with
  | some b => decide (b ≠ "") && decide (msgId = b)
  | none => false

/-- One iteration of the poll loop body (src/otpUtils.js lines 212-280),
returning the OTP if this attempt found one and `none` for every kind of
miss: thrown transport error (outer catch), no matching message, baseline
id match, message too old, or no extractable OTP.  All `extractOtp` calls
use the defaults `minLen = 4, maxLen = 8`. -/
def otpIteration (env : PollEnv) (afterMessageId : Option String) (maxAgeMin : Int)
    (attempt : Nat) : Option String :=
  match env.poll attempt with
  | .threw _ => none
  | .msg none => none
  | .msg (some m) =>
    if otpBaselineSkip afterMessageId m.id then none
    else
      let maxAge := (if 0 < maxAgeMin then maxAgeMin else 2) * 60000
      let age := env.startTime attempt - m.receivedMs
      if maxAgeMin ≤ 0 ∨ age ≤ maxAge then
        match (extractOtp (some m.subject) 4 8).orElse
            (fun _ => (extractOtp (some m.bodyPreview) 4 8).orElse
              (fun _ => extractOtp (some (env.body attempt)) 4 8)) with
        | some o => if o = "" then none else some o
        | none => none
      else none

/-- The poll loop (`for attempt = 1..maxRetries`): return the first
iteration's OTP, else `none` after the budget is exhausted. -/
def fetchOtpLoop (env : PollEnv) (afterMessageId : Option String) (maxAgeMin : Int) :
    Nat → Nat → Option String
  | _, 0 => none
  | attempt, fuel + 1 =>
    match otpIteration env afterMessageId maxAgeMin attempt with
    | some o => some o
    | none => fetchOtpLoop env afterMessageId maxAgeMin (attempt + 1) fuel

/-- `fetchOtpFromEmail(from, retries, delayMs, maxAgeMinutes,
afterMessageId)`: the attempt budget is clamped to `[1, 50]` (line 199);
sleeps are immaterial to the result and not modelled. -/
def fetchOtpFromEmail (env : PollEnv) (retries : Nat) (maxAgeMin : Int)
    (afterMessageId : Option String) : Option String :=
  fetchOtpLoop env afterMessageId maxAgeMin 1 (min (max 1 retries) 50)

lemma fetchOtpLoop_eq_some (env : PollEnv) (after : Option String) (maxAgeMin : Int) :
    ∀ (fuel start : Nat) (o : String),
      fetchOtpLoop env after maxAgeMin start fuel = some o →
      ∃ i, start ≤ i ∧ i < start + fuel ∧ otpIteration env after maxAgeMin i = some o := by
  intro fuel
  induction fuel with
  | zero => intro start o h; simp [fetchOtpLoop] at h
  | succ k ih =>
    intro start o h
    rw [fetchOtpLoop] at h
    cases hit : otpIteration env after maxAgeMin start with
    | some o2 =>
      rw [hit] at h
      obtain rfl : o2 = o := Option.some.inj h
      exact ⟨start, Nat.le_refl _, by omega, hit⟩
    | none =>
      rw [hit] at h
      obtain ⟨i, h1, h2, h3⟩ := ih (start + 1) o h
      exact ⟨i, by omega, by omega, h3⟩

lemma fetchOtpLoop_all_none (env : PollEnv) (after : Option String) (maxAgeMin : Int) :
    ∀ (fuel start : Nat),
      (∀ i, i < fuel → otpIteration env after maxAgeMin (start + i) = none) →
      fetchOtpLoop env after maxAgeMin start fuel = none := by
  intro fuel
  induction fuel with
  | zero => intro start _; rfl
  | succ k ih =>
    intro start hall
    have h0 : otpIteration env after maxAgeMin start = none := by
      have := hall 0 (by omega)
      simpa using this
    rw [fetchOtpLoop, h0]
    exact ih (start + 1) (fun i hi => by
      have := hall (i + 1) (by omega)
      rw [show start + 1 + i = start + (i + 1) from by omega]
      exact this)

lemma fetchOtpLoop_first_some (env : PollEnv) (after : Option String) (maxAgeMin : Int) :
    ∀ (fuel jd start : Nat) (o : String), jd < fuel →
      (∀ k, k < jd → otpIteration env after maxAgeMin (start + k) = none) →
      otpIteration env after maxAgeMin (start + jd) = some o →
      fetchOtpLoop env after maxAgeMin start fuel = some o := by
  intro fuel
  induction fuel with
  | zero => intro jd start o h; exact absurd h (by omega)
  | succ k ih =>
    intro jd start o hlt hnone hsome
    cases jd with
    | zero =>
      rw [Nat.add_zero] at hsome
      rw [fetchOtpLoop, hsome]
    | succ jd2 =>
      have h0 : otpIteration env after maxAgeMin start = none := by
        have := hnone 0 (by omega)
        simpa using this
      rw [fetchOtpLoop, h0]
      exact ih jd2 (start + 1) o (by omega)
        (fun k2 hk2 => by
          have := hnone (k2 + 1) (by omega)
          rw [show start + 1 + k2 = start + (k2 + 1) from by omega]
          exact this)
        (by
          rw [show start + 1 + jd2 = start + (jd2 + 1) from by omega]
          exact hsome)

/-- Any iteration whose polled message carries a *nonempty* baseline id is
treated as "no new message yet". -/
lemma otpIteration_baseline_hit (env : PollEnv) (maxAgeMin : Int) (b : String)
    (hb : b ≠ "") (i : Nat) (m : MailMsg)
    (hp : env.poll i = .msg (some m)) (hid : m.id = b) :
    otpIteration env (some b) maxAgeMin i = none := by
  simp [otpIteration, hp, otpBaselineSkip, hid, hb]

/-- C4 counterexample: with the *empty-string* baseline `""` — which is
non-null — and a mailbox whose newest matching message has exactly that id,
the guard `afterMessageId && msg.id === afterMessageId` short-circuits on
the falsy baseline and the correlator returns the OTP extracted from the
baseline message itself, contradicting the claim for this non-null
baseline. -/
def baselineCexMsg : MailMsg := ⟨"", 0, "code 1234", ""⟩

def baselineCexEnv : PollEnv :=
  ⟨fun _ => .msg (some baselineCexMsg), fun _ => "", fun _ => 0⟩

/-- C4 counterexample theorem (see `baselineCexEnv`): the baseline is the
non-null string `""`, the polled message's id equals the baseline, and the
returned OTP comes from that very message. -/
theorem fetchOtp_baseline_counterexample :
    fetchOtpFromEmail baselineCexEnv 5 0 (some "") = some "1234" ∧
      baselineCexEnv.poll 1 = .msg (some baselineCexMsg) ∧
      baselineCexMsg.id = "" :=
  ⟨by decide, rfl, rfl⟩

/-- C4 (amended): for every *nonempty* (hence truthy) baseline id `b`, the
correlator never returns an OTP from the message whose id equals `b`: any
OTP it returns was produced by an iteration whose polled message has
`id ≠ b`.  (For the falsy baselines `null` and `""` the guard is disabled.) -/
theorem fetchOtp_baseline_skip (env : PollEnv) (retries : Nat) (maxAgeMin : Int)
    (b : String) (hb : b ≠ "") (o : String)
    (hr : fetchOtpFromEmail env retries maxAgeMin (some b) = some o) :
    ∃ i m, env.poll i = .msg (some m) ∧ m.id ≠ b ∧
      otpIteration env (some b) maxAgeMin i = some o := by
  obtain ⟨i, _, _, hit⟩ := fetchOtpLoop_eq_some env (some b) maxAgeMin _ 1 o hr
  cases hp : env.poll i with
  | threw e => rw [otpIteration, hp] at hit; exact absurd hit (by simp)
  | msg mm =>
    cases mm with
    | none => rw [otpIteration, hp] at hit; exact absurd hit (by simp)
    | some m =>
      refine ⟨i, m, hp, ?_, hit⟩
      intro hid
      rw [otpIteration_baseline_hit env maxAgeMin b hb i m hp hid] at hit
      exact absurd hit (by simp)

/-- C4 (amended) witness: a nonempty baseline `"base"`; the only OTP the
correlator returns comes from a message with a different id. -/
theorem fetchOtp_baseline_skip_witness :
    ∃ i m, (PollEnv.mk (fun _ => .msg (some ⟨"fresh", 0, "code 1234", ""⟩))
        (fun _ => "") (fun _ => 0)).poll i = .msg (some m) ∧ m.id ≠ "base" ∧
      otpIteration (PollEnv.mk (fun _ => .msg (some ⟨"fresh", 0, "code 1234", ""⟩))
        (fun _ => "") (fun _ => 0)) (some "base") 0 i = some "1234" :=
  fetchOtp_baseline_skip
    (PollEnv.mk (fun _ => .msg (some ⟨"fresh", 0, "code 1234", ""⟩))
      (fun _ => "") (fun _ => 0)) 5 0 "base" (by decide) "1234" (by decide)

/-- C7: failure semantics of the poll loop.  (1) A transport failure
(thrown mail-API error) on any single iteration is swallowed and treated
as a miss for that iteration; (2) when all iterations of the clamped
budget miss, the call returns none — it never propagates a transport
error to its caller (the embedding's return type carries no error case,
mirroring that every throw inside the loop body is caught at lines
276-280); and (3) a miss — including a transport failure — does not abort
the correlation: the first later iteration that finds an OTP determines
the result. -/
theorem fetchOtp_failure_semantics (env : PollEnv) (retries : Nat) (maxAgeMin : Int)
    (after : Option String) :
    (∀ (i : Nat) (e : JsError), env.poll i = .threw e →
      otpIteration env after maxAgeMin i = none) ∧
    ((∀ i, i < min (max 1 retries) 50 →
        otpIteration env after maxAgeMin (1 + i) = none) →
      fetchOtpFromEmail env retries maxAgeMin after = none) ∧
    (∀ (jd : Nat) (o : String), jd < min (max 1 retries) 50 →
      (∀ k, k < jd → otpIteration env after maxAgeMin (1 + k) = none) →
      otpIteration env after maxAgeMin (1 + jd) = some o →
      fetchOtpFromEmail env retries maxAgeMin after = some o) := by
  refine ⟨?_, ?_, ?_⟩
  · intro i e hp
    rw [otpIteration, hp]
  · intro hall
    exact fetchOtpLoop_all_none env after maxAgeMin _ 1 hall
  · intro jd o hlt hnone hsome
    exact fetchOtpLoop_first_some env after maxAgeMin _ jd 1 o hlt hnone hsome

/-- The C7 witness environment: attempt 1 throws a transport error,
attempt 2 finds a fresh OTP mail, later attempts find nothing. -/
def transientFailEnv : PollEnv :=
  ⟨fun n => match n with
    | 1 => .threw ⟨"connect ETIMEDOUT", none⟩
    | 2 => .msg (some ⟨"id2", 0, "your code 5678", ""⟩)
    | _ => .msg none,
   fun _ => "", fun _ => 0⟩

/-- The C7 witness environment for exhaustion: no matching message ever. -/
def allMissEnv : PollEnv := ⟨fun _ => .msg none, fun _ => "", fun _ => 0⟩

/-- C7 witness: the swallowed transport error on attempt 1 is a miss, the
correlation still succeeds on attempt 2, and a fully missing mailbox
exhausts to none. -/
theorem fetchOtp_failure_semantics_witness :
    otpIteration transientFailEnv none 0 1 = none ∧
      fetchOtpFromEmail transientFailEnv 5 0 none = some "5678" ∧
      fetchOtpFromEmail allMissEnv 5 0 none = none :=
  ⟨(fetchOtp_failure_semantics transientFailEnv 5 0 none).1 1
      ⟨"connect ETIMEDOUT", none⟩ rfl,
   (fetchOtp_failure_semantics transientFailEnv 5 0 none).2.2 1 "5678"
      (by decide) (by decide) (by decide),
   (fetchOtp_failure_semantics allMissEnv 5 0 none).2.1 (by decide)⟩

/-! ## `getLatestMessageFrom` (src/otpUtils.js lines 91-148)

String helpers mirroring the JS ones used by the sender-matching policy. -/

/-- Whitespace for the purposes of JS `String.prototype.trim` (the
characters that occur in mail addresses' padding). -/
def isWsChar (c : Char) : Bool :=
  c == ' ' || c == '\t' || c == '\n' || c == '\r'

/-- JS `s.trim()`. -/
def jsTrim (s : String) : String :=
  String.mk (((s.data.dropWhile isWsChar).reverse.dropWhile isWsChar).reverse)

/-- JS `s.toLowerCase()` (ASCII; the addresses involved are ASCII). -/
def strLower (s : String) : String := String.mk (s.data.map Char.toLower)

/-- JS `a || b` on strings: first operand unless it is falsy (empty). -/
def jsOrStr (a b : String) : String := if a = "" then b else a

/-- JS `hay.includes(needle)` on character lists. -/
def jsIncludes : List Char → List Char → Bool
  | [], needle => needle.isEmpty
  | c :: cs, needle => needle.isPrefixOf (c :: cs) || jsIncludes cs needle

/-- A Microsoft Graph message as returned by the list endpoints; `from` /
`sender` address fields may be absent (`none`). -/
structure GraphMsg where
  id : String
  subject : String
  receivedMs : Int
  fromAddress : Option String
  senderAddress : Option String
  bodyPreview : String
deriving DecidableEq

/-- `getFromAddress(msg)` (src/otpUtils.js lines 75-77):
`(msg?.from?...address || msg?.sender?...address || '').trim()`. -/
def getFromAddress (m : GraphMsg) : String :=
  jsTrim (jsOrStr (m.fromAddress.getD "") (m.senderAddress.getD ""))

/-- `matchSender(addr, wanted)` (src/otpUtils.js lines 79-89): exact
match, or the sender address containing the wanted address, or the same
domain — in that order. -/
def matchSender (addr wanted : String) : Bool :=
  let a := strLower (jsTrim addr)
  let w := strLower (jsTrim wanted)
  if a = "" || w = "" then false
  else if a = w then true
  else if jsIncludes a.data w.data then true
  else
    let domain := if w.data.contains '@' then (w.splitOn "@").getD 1 "" else ""
    decide (domain ≠ "") && ("@" ++ domain).data.isSuffixOf a.data

/-- A Graph list query as issued by `fetchMessages`: folder (`none` = all
messages), page size, server-side ordering (`none` = unordered). -/
structure FetchQuery where
  folder : Option String
  top : Nat
  orderBy : Option String
deriving DecidableEq

/-- A Graph response: a message batch, or a transport/API failure. -/
inductive GraphResp
  | ok (msgs : List GraphMsg)
  | fail (message : String)
deriving DecidableEq

/-- `fetchMessages` in the hardened copy (src/otpUtils.js lines 91-107):
the page size is clamped (`Math.min(Number(top) || 25, 200)`), and —
crucially — *every* error is caught and an empty batch returned, so the
caller can no longer observe a failed or unordered-only fetch. -/
def fetchMessages (server : FetchQuery → GraphResp) (q : FetchQuery) : List GraphMsg :=
  match server ⟨q.folder, min (if q.top = 0 then 25 else q.top) 200, q.orderBy⟩ with
  | .ok l => l
  | .fail _ => []

def recencyOrder : Option String := some "receivedDateTime desc"

def inboxQuery : FetchQuery := ⟨some "inbox", 100, recencyOrder⟩

def junkQuery : FetchQuery := ⟨some "junkemail", 100, recencyOrder⟩

def allQuery : FetchQuery := ⟨none, 200, recencyOrder⟩

/-- `getLatestMessageFrom(fromAddress)` (src/otpUtils.js lines 109-148):
fetch inbox, then junk, then all messages — each with server-side recency
ordering requested — and return the *first* locally matching message of
the first non-empty-result folder.  The catch branch that re-fetches
without `orderby` and sorts locally (lines 138-147) is unreachable in this
hardened copy, because `fetchMessages` swallows every error and returns
`[]`; it is therefore absent from the embedding of the reachable
semantics. -/
def getLatestMessageFrom (server : FetchQuery → GraphResp) (fromAddress : String) :
    Option GraphMsg :=
  let wanted := strLower (jsTrim fromAddress)
  let pickLatestMatch := fun (msgs : List GraphMsg) =>
    msgs.find? (fun m => matchSender (getFromAddress m) wanted)
  match pickLatestMatch (fetchMessages server inboxQuery) with
  | some m => some m
  | none =>
    match pickLatestMatch (fetchMessages server junkQuery) with
    | some m => some m
    | none => pickLatestMatch (fetchMessages server allQuery)

/-- `find?` on a batch sorted newest-first returns a match of maximal
timestamp among the matches. -/
lemma find?_first_newest (p : GraphMsg → Bool) :
    ∀ (l : List GraphMsg), l.Pairwise (fun x y => y.receivedMs ≤ x.receivedMs) →
      ∀ m0, l.find? p = some m0 →
      ∀ m ∈ l, p m = true → m.receivedMs ≤ m0.receivedMs := by
  intro l
  induction l with
  | nil => intro _ m0 h; simp at h
  | cons a t ih =>
    intro hpw m0 hfind m hm hpm
    by_cases hpa : p a = true
    · rw [List.find?_cons_of_pos _ hpa] at hfind
      obtain rfl : a = m0 := Option.some.inj hfind
      rcases List.mem_cons.mp hm with rfl | hm2
      · exact Int.le_refl _
      · exact (List.pairwise_cons.mp hpw).1 m hm2
    · rw [List.find?_cons_of_neg _ hpa] at hfind
      rcases List.mem_cons.mp hm with rfl | hm2
      · exact absurd hpm hpa
      · exact ih (List.pairwise_cons.mp hpw).2 m0 hfind m hm2 hpm

/-- C6 counterexample: the Message Source answers the inbox query — with
recency ordering *requested* — by a batch in ascending (wrong) order and
no error.  `getLatestMessageFrom` returns the *older* matching message,
not the true most-recent one: its result depends on the backing store's
ordering guarantee. -/
def c6Old : GraphMsg := ⟨"m-old", "old otp 1111", 100, some "noreply@logisti.sa", none, ""⟩

def c6New : GraphMsg := ⟨"m-new", "new otp 2222", 200, some "noreply@logisti.sa", none, ""⟩

def c6UnorderedServer : FetchQuery → GraphResp := fun q =>
  if q.folder = some "inbox" then .ok [c6Old, c6New] else .ok []

/-- C6 counterexample theorem (see `c6UnorderedServer`): both messages
match the wanted sender, the newer one is strictly more recent, yet the
older one is returned. -/
theorem getLatestMessageFrom_order_counterexample :
    getLatestMessageFrom c6UnorderedServer "NoReply@logisti.sa" = some c6Old ∧
      matchSender (getFromAddress c6New) (strLower (jsTrim "NoReply@logisti.sa")) = true ∧
      c6Old.receivedMs < c6New.receivedMs :=
  ⟨by decide, by decide, by decide⟩

/-- C6 (amended): the correlator returns the first sender-matching message
of the server-returned batches (inbox, then junk, then all), so its
correctness *does* depend on the store's ordering: (1) when the inbox
batch is ordered newest-first, the result is a matching message at least
as recent as every matching message of that batch; (2) when a fetch
fails — e.g. the store rejects the requested ordering — the hardened
fetch layer swallows the error into an empty batch, so the local-sort
fallback never runs and a totally failing store yields `none`. -/
theorem getLatestMessageFrom_amended (server : FetchQuery → GraphResp)
    (fromAddress : String) :
    ((fetchMessages server inboxQuery).Pairwise
        (fun x y => y.receivedMs ≤ x.receivedMs) →
      ∀ m ∈ fetchMessages server inboxQuery,
        matchSender (getFromAddress m) (strLower (jsTrim fromAddress)) = true →
        ∃ m0, getLatestMessageFrom server fromAddress = some m0 ∧
          matchSender (getFromAddress m0) (strLower (jsTrim fromAddress)) = true ∧
          ∀ m2 ∈ fetchMessages server inboxQuery,
            matchSender (getFromAddress m2) (strLower (jsTrim fromAddress)) = true →
            m2.receivedMs ≤ m0.receivedMs) ∧
    (∀ errOf : FetchQuery → String, (∀ q, server q = .fail (errOf q)) →
      getLatestMessageFrom server fromAddress = none) := by
  constructor
  · intro hsorted m hm hpm
    have hex : ((fetchMessages server inboxQuery).find?
        (fun m2 => matchSender (getFromAddress m2) (strLower (jsTrim fromAddress)))).isSome := by
      rw [List.find?_isSome]
      exact ⟨m, hm, hpm⟩
    obtain ⟨m0, hm0⟩ := Option.isSome_iff_exists.mp hex
    refine ⟨m0, ?_, ?_, ?_⟩
    · simp only [getLatestMessageFrom, hm0]
    · simpa using List.find?_some hm0
    · exact find?_first_newest _ _ hsorted m0 hm0
  · intro errOf hfail
    simp [getLatestMessageFrom, fetchMessages, hfail]

/-- C6 (amended) witness environment: the inbox batch is correctly ordered
newest-first. -/
def c6SortedServer : FetchQuery → GraphResp := fun q =>
  if q.folder = some "inbox" then .ok [c6New, c6Old] else .ok []

/-- C6 (amended) witness: on the ordered batch the newest match is
returned, and on a totally failing store the result is `none`. -/
theorem getLatestMessageFrom_amended_witness :
    (∃ m0, getLatestMessageFrom c6SortedServer "NoReply@logisti.sa" = some m0 ∧
      matchSender (getFromAddress m0) (strLower (jsTrim "NoReply@logisti.sa")) = true ∧
      ∀ m2 ∈ fetchMessages c6SortedServer inboxQuery,
        matchSender (getFromAddress m2) (strLower (jsTrim "NoReply@logisti.sa")) = true →
        m2.receivedMs ≤ m0.receivedMs) ∧
    getLatestMessageFrom
      (fun _ => .fail "restriction or sort order is too complex") "NoReply@logisti.sa"
      = none :=
  ⟨(getLatestMessageFrom_amended c6SortedServer "NoReply@logisti.sa").1
      (by decide) c6New (by decide) (by decide),
   (getLatestMessageFrom_amended
      (fun _ => .fail "restriction or sort order is too complex") "NoReply@logisti.sa").2
      (fun _ => "restriction or sort order is too complex") (fun _ => rfl)⟩

/-! ## OTP entry into the login form (src/authService.js lines 705-727) -/

/-- The observable effect of the OTP-entry fragment: either the ordered
list of `(field selector, typed character)` pairs, or the thrown error. -/
inductive OtpEntryResult
  | typed (actions : List (String × Char))
  | failed (e : JsError)
deriving DecidableEq

/-- The OTP-entry fragment of one login attempt (src/authService.js lines
705-727): a falsy (`null` or empty) fetch result throws `Failed to fetch
OTP from email`; a result of fewer than 4 characters throws
`OTP too short: <otp>`; otherwise the loop `for i in 0..3` types
`otpDigits[i]` into `#TwoFactorCode{i+1}` — only the first four characters,
whatever the length of the extracted code. -/
def otpEntryActions (otp : Option String) : OtpEntryResult :=
  match otp with
  | none => .failed ⟨"Failed to fetch OTP from email", none⟩
  | some o =>
    if o = "" then .failed ⟨"Failed to fetch OTP from email", none⟩
    else if o.length < 4 then .failed ⟨"OTP too short: " ++ o, none⟩
    else .typed ((List.range 4).map
      (fun k => ("#TwoFactorCode" ++ toString (k + 1), o.data.getD k ' ')))

lemma take_four (l : List Char) (h : 4 ≤ l.length) :
    l.take 4 = [l.getD 0 ' ', l.getD 1 ' ', l.getD 2 ' ', l.getD 3 ' '] := by
  cases l with
  | nil => simp at h
  | cons a l1 =>
    cases l1 with
    | nil => simp at h
    | cons b l2 =>
      cases l2 with
      | nil => simp at h
      | cons c l3 =>
        cases l3 with
        | nil => simp at h
        | cons d l4 => rfl

/-- C10: for every (nonempty) OTP string handed back by the correlator,
the attempt fails with `OTP too short` when it has fewer than 4
characters; otherwise exactly the first four characters are typed into
`#TwoFactorCode1`-`#TwoFactorCode4`, and any characters beyond the fourth
are silently ignored (two codes agreeing on their first four characters
produce identical form actions). -/
theorem otpEntry_spec (o : String) (ho : o ≠ "") :
    (o.length < 4 → otpEntryActions (some o) = .failed ⟨"OTP too short: " ++ o, none⟩) ∧
    (4 ≤ o.length →
      ∃ acts, otpEntryActions (some o) = .typed acts ∧
        acts.map Prod.fst
          = ["#TwoFactorCode1", "#TwoFactorCode2", "#TwoFactorCode3", "#TwoFactorCode4"] ∧
        acts.map Prod.snd = o.data.take 4) ∧
    (∀ o2 : String, o2 ≠ "" → 4 ≤ o.length → o.data.take 4 = o2.data.take 4 →
      otpEntryActions (some o) = otpEntryActions (some o2)) := by
  have hlen : o.length = o.data.length := rfl
  refine ⟨?_, ?_, ?_⟩
  · intro h
    simp only [otpEntryActions, if_neg ho, if_pos h]
  · intro h
    refine ⟨(List.range 4).map
        (fun k => ("#TwoFactorCode" ++ toString (k + 1), o.data.getD k ' ')), ?_, ?_, ?_⟩
    · simp only [otpEntryActions, if_neg ho, if_neg (by omega : ¬ o.length < 4)]
    · rw [show (List.range 4) = [0, 1, 2, 3] from rfl]
      rfl
    · rw [take_four o.data (by omega), show (List.range 4) = [0, 1, 2, 3] from rfl]
      rfl
  · intro o2 ho2 h hteq
    have hlen2 : o2.length = o2.data.length := rfl
    have h2 : 4 ≤ o2.length := by
      have := congrArg List.length hteq
      rw [List.length_take, List.length_take] at this
      omega
    have e := (take_four o.data (by omega)).symm.trans
      (hteq.trans (take_four o2.data (by omega)))
    obtain ⟨e0, e1, e2, e3⟩ : o.data.getD 0 ' ' = o2.data.getD 0 ' ' ∧
        o.data.getD 1 ' ' = o2.data.getD 1 ' ' ∧
        o.data.getD 2 ' ' = o2.data.getD 2 ' ' ∧
        o.data.getD 3 ' ' = o2.data.getD 3 ' ' := by
      simpa using e
    simp only [otpEntryActions, if_neg ho, if_neg ho2,
      if_neg (by omega : ¬ o.length < 4), if_neg (by omega : ¬ o2.length < 4)]
    rw [show (List.range 4) = [0, 1, 2, 3] from rfl]
    simp only [List.map_cons, List.map_nil]
    rw [e0, e1, e2, e3]

/-- C10 witness: a 3-character code is rejected as too short; a 6-digit
code types exactly `1`,`2`,`3`,`4` into the four fields; and a longer code
agreeing on the first four characters produces identical actions. -/
theorem otpEntry_spec_witness :
    otpEntryActions (some "123") = .failed ⟨"OTP too short: " ++ "123", none⟩ ∧
      (∃ acts, otpEntryActions (some "123456") = .typed acts ∧
        acts.map Prod.fst
          = ["#TwoFactorCode1", "#TwoFactorCode2", "#TwoFactorCode3", "#TwoFactorCode4"] ∧
        acts.map Prod.snd = ("123456" : String).data.take 4) ∧
      otpEntryActions (some "123456") = otpEntryActions (some "12345678") :=
  ⟨(otpEntry_spec "123" (by decide)).1 (by decide),
   (otpEntry_spec "123456" (by decide)).2.1 (by decide),
   (otpEntry_spec "123456" (by decide)).2.2 "12345678" (by decide) (by decide) (by decide)⟩

end BayanGetAuth
